import Mathlib

/-!
Verification of the puzzle-analytics ETL core: a shallow embedding of the
invocation-tree walker (`extractors/blockchain.py`), the swap and staking
transformers (`transformers/swaps.py`, `transformers/staking.py`), the asset
registry (`mappings/assets.py`) and the batched streaming extractor, together
with theorems settling the frozen claims about them.

Conventions of the embedding:
* Python `dict` records become structures; a field read with `d[k]` that can
  raise `KeyError` is an `Option` field, and a function that can raise models
  its result as `Option` (`none` = uncaught exception).
* `decimal.Decimal` values are modelled by `PyDec` (coefficient and exponent,
  following the General Decimal Arithmetic behaviour of the operations the
  source uses); their numeric value lives in `ℚ` via `PyDec.toRat`.
* Raw on-chain amounts are natural numbers (chain-native units).
* Nested invocation trees use the mutually inductive `Invoke`/`InvokeList`
  so that all recursion is structural and computation reduces definitionally.
-/

set_option maxHeartbeats 1000000
set_option maxRecDepth 8000

namespace PuzzleEtl

/-! ## Invocation trees (`stateChanges.invokes`) -/

mutual

/-- A nested invocation node: `dApp`, `call.function`, `stateChanges.invokes`.
Fields that the source reads with a plain `[...]` access (which may raise
`KeyError`) are `Option`s. -/
inductive Invoke : Type where
  | node : Option String → Option String → InvokeList → Invoke

/-- A list of invocation nodes (kept as a dedicated inductive so that the
recursive walker is structurally recursive). -/
inductive InvokeList : Type where
  | nil : InvokeList
  | cons : Invoke → InvokeList → InvokeList

end

/-- `dApp` of a node. -/
def Invoke.dApp : Invoke → Option String
  | .node d _ _ => d

/-- `call.function` of a node. -/
def Invoke.callFn : Invoke → Option String
  | .node _ f _ => f

/-- `stateChanges.invokes` of a node. -/
def Invoke.invokes : Invoke → InvokeList
  | .node _ _ l => l

/-- A transaction collected by the walker (`RelevantInvocation`): the invoke
record after the walker has stamped `sender`, `height`, `timestamp`,
`type := 16` and `id` onto it. -/
structure RelTx where
  sender : String
  height : Int
  timestamp : Int
  txType : Int
  id : String
  dApp : Option String
  callFn : Option String
  invokes : InvokeList

/-- The `payload` carried by a wrapped (type-18) transaction. -/
structure Payload where
  ptype : String
  dApp : Option String
  callFn : Option String
  invokes : InvokeList

/-- A raw top-level transaction as consumed by `_find_relevant_transactions`. -/
structure Tx where
  txType : Int
  applicationStatus : Option String
  id : String
  sender : String
  height : Int
  timestamp : Int
  dApp : Option String
  callFn : Option String
  invokes : InvokeList
  payload : Option Payload

/-- `BlockchainExtractor._extract_invokes`: walk a list of nested invokes for
`target_address` / `vip_functions`, stamping each node with the inherited
`sender`, `height`, `timestamp`, `type := 16`, `id`.  A `KeyError` while
evaluating the relevance predicate (missing `dApp`, or missing
`call.function` when `dApp` does not match) is caught with `continue`, which
skips that node together with the recursion into its own nested invokes. -/
def extract_invokes (target : String) (vip : List String) (height timestamp : Int)
    (txId : String) : String → InvokeList → List RelTx
  | _, .nil => []
  | sender, .cons (.node d f sub) rest =>
    match d, f with
    | none, _ =>
      -- `invoke["dApp"]` raises: skip the node and its subtree, continue.
      extract_invokes target vip height timestamp txId sender rest
    | some dApp, none =>
      if dApp == target then
        -- the disjunction short-circuits, `call.function` is never read
        RelTx.mk sender height timestamp 16 txId (some dApp) none sub
          :: (extract_invokes target vip height timestamp txId dApp sub
              ++ extract_invokes target vip height timestamp txId sender rest)
      else
        -- `invoke["call"]["function"]` raises: skip node and subtree.
        extract_invokes target vip height timestamp txId sender rest
    | some dApp, some fn =>
      (if dApp == target || vip.contains fn then
         [RelTx.mk sender height timestamp 16 txId (some dApp) (some fn) sub]
       else [])
        ++ extract_invokes target vip height timestamp txId dApp sub
        ++ extract_invokes target vip height timestamp txId sender rest

/-- `BlockchainExtractor._find_relevant_transactions`.  `none` models an
uncaught exception (`KeyError` on the top-level transaction or a missing
type-18 `payload`); `some l` is the returned list. -/
def find_relevant_transactions (tx : Tx) (target : String) (vip : List String) :
    Option (List RelTx) :=
  if tx.applicationStatus != some "succeeded" then some []
  else
    let unwrapped : Option Tx :=
      if tx.txType == 18 then
        match tx.payload with
        | none => none
        | some p =>
          some { tx with
                   txType := if p.ptype == "invocation" then 16 else 4,
                   dApp := p.dApp, callFn := p.callFn, invokes := p.invokes,
                   payload := none }
      else some tx
    match unwrapped with
    | none => none
    | some t =>
      if t.txType == 16 then
        match t.dApp, t.callFn with
        | none, _ => none
        | some d, none =>
          if d == target then
            some (RelTx.mk t.sender t.height t.timestamp t.txType t.id
                    (some d) none t.invokes
              :: extract_invokes target vip t.height t.timestamp t.id d t.invokes)
          else none
        | some d, some fn =>
          some ((if d == target || vip.contains fn then
                   [RelTx.mk t.sender t.height t.timestamp t.txType t.id
                      (some d) (some fn) t.invokes]
                 else [])
            ++ extract_invokes target vip t.height t.timestamp t.id d t.invokes)
      else some []

/-! ### Specification-side traversal (from the spec's words), for refinement -/

/-- The relevance predicate as the spec words it:
`node.dApp == target_address OR node.call.function ∈ vip_functions`. -/
def spec_relevant (target : String) (vip : List String)
    (d f : Option String) : Bool :=
  d == some target || (match f with
                       | some fn => vip.contains fn
                       | none => false)

/-- The spec's traversal: depth-first pre-order, siblings in source order;
each node inherits `sender := parent.dApp` and the top-level `height`,
`timestamp`, `id`, is tagged with type 16, is emitted iff relevant, and its
nested invokes are then walked with itself as parent. -/
def spec_preorder (target : String) (vip : List String) (height timestamp : Int)
    (txId : String) : String → InvokeList → List RelTx
  | _, .nil => []
  | parent, .cons (.node d f sub) rest =>
    (if spec_relevant target vip d f then
       [RelTx.mk parent height timestamp 16 txId d f sub]
     else [])
      ++ spec_preorder target vip height timestamp txId (d.getD "") sub
      ++ spec_preorder target vip height timestamp txId parent rest

/-- Well-formedness of an invocation tree: every node carries both `dApp`
and `call.function`. -/
def invokes_wf : InvokeList → Bool
  | .nil => true
  | .cons (.node d f sub) rest =>
    d.isSome && f.isSome && invokes_wf sub && invokes_wf rest

/-- Well-formedness of a top-level transaction for the invocation walk. -/
def tx_wf (tx : Tx) : Bool :=
  tx.dApp.isSome && tx.callFn.isSome && invokes_wf tx.invokes

/-- The spec-side result for a whole well-formed type-16 transaction: root
tested first, then the pre-order walk of its nested invokes with the root as
parent. -/
def spec_find (tx : Tx) (target : String) (vip : List String) : List RelTx :=
  (if spec_relevant target vip tx.dApp tx.callFn then
     [RelTx.mk tx.sender tx.height tx.timestamp 16 tx.id
        tx.dApp tx.callFn tx.invokes]
   else [])
    ++ spec_preorder target vip tx.height tx.timestamp tx.id
         (tx.dApp.getD "") tx.invokes

/-- A chain of nested invokes, all relevant to `target`, of depth `n + 1`. -/
def chain_invoke (target : String) : Nat → Invoke
  | 0 => .node (some target) (some "f") .nil
  | n + 1 => .node (some target) (some "f") (.cons (chain_invoke target n) .nil)

/-- A succeeded invocation transaction with `n` levels of nested invokes,
all relevant to `target`. -/
def chain_tx (target : String) (n : Nat) : Tx :=
  { txType := 16, applicationStatus := some "succeeded", id := "cid",
    sender := "cs", height := 3, timestamp := 4, dApp := some target,
    callFn := some "f",
    invokes := match n with
               | 0 => .nil
               | m + 1 => .cons (chain_invoke target m) .nil,
    payload := none }

/-! ## Asset registry (`mappings/assets.py`) -/

/-- `AssetMapping.WAVES_ID`. -/
def WAVES_ID : String := "WAVES"

/-- `AssetMapping.PUZZLE_TOKEN_ID`. -/
def PUZZLE_TOKEN_ID : String := "HEB8Qaw9xrWpWs8tHsiATYGBWDBtP2S7kcPALrMu43AS"

/-- The `(id, decimals)` pairs of `AssetMapping.get_all_assets()`
(`MAJOR_ASSETS`, `DEFI_TOKENS` and `LP_TOKENS` merged). -/
def asset_decimals_table : List (String × Nat) :=
  [(WAVES_ID, 8),
   (PUZZLE_TOKEN_ID, 8),
   ("DG2xFkPdDwKUoBkzGAhQtLpSGzfXLiCYPEzeKH2Ad24p", 6),
   ("34N9YcEETLWn93qYQ64EsP1x89tSruJU44RrEMSXXEPJ", 6),
   ("8LQW8f7P5d5PZM7GtZEBgaqRPGSzS3DfPuiXrURJ4AJS", 8),
   ("474jTeYx2r2Va35794tCScAXWJG9hU2HcgxzMowaZUnu", 8),
   ("6nSpVyNH7yM69eg446wrQR94ipbbcmZMU1ENPwanC97g", 6),
   ("Ehie5xYpeN8op1Cctc6aGUrqx8jq3jtf1DSjXDbfm7aT", 8),
   ("6XtHjpXbs9RRJP2Sr9GUyVqzACcby9TkThHXnjVC5CDJ", 8),
   ("AAHG5gzQeWfqhR9K4rptpyDDoo9SgAEiEsQEP1Rge2zG", 8),
   ("3P2uzAzX9XTu1t32GkWw68YFFLwtapWvDds_LP", 8),
   ("3PJaBXZu5rNjKJhZLYnHjhKdDhqUGdZgLzs_LP", 8)]

/-- `AssetMapping.get_asset_decimals`: decimals of a known asset, 8 when the
asset is not in the registry. -/
def get_asset_decimals (assetId : String) : Nat :=
  match asset_decimals_table.find? (fun p => p.1 == assetId) with
  | some p => p.2
  | none => 8

/-! ## A model of Python `decimal.Decimal` for the operations the source uses -/

/-- A Python `Decimal` value: coefficient times `10 ^ exponent`. -/
structure PyDec where
  coeff : Int
  exp : Int
deriving DecidableEq

/-- Numeric value of a `PyDec`. -/
def PyDec.toRat (d : PyDec) : ℚ := (d.coeff : ℚ) * (10 : ℚ) ^ d.exp

/-- `Decimal(0)`. -/
def PyDec.zero : PyDec := ⟨0, 0⟩

/-- Number of trailing decimal zeros of `n` (fuel-driven so that it reduces
definitionally; `fuel ≥ number of digits` suffices and `tz` passes `n`). -/
def tzGo : Nat → Nat → Nat
  | 0, _ => 0
  | fuel + 1, n => if n ≠ 0 ∧ n % 10 = 0 then tzGo fuel (n / 10) + 1 else 0

/-- Number of trailing decimal zeros of a nonzero `n`. -/
def tz (n : Nat) : Nat := tzGo n n

/-- `Decimal(n) / Decimal(10 ** p)` for an integer `n`: the exact quotient
with the exponent brought as close to the ideal exponent `0` as removing
trailing zeros allows (General Decimal Arithmetic divide, exact case). -/
def pyDivPow (n : Int) (p : Nat) : PyDec :=
  if n = 0 then ⟨0, 0⟩
  else
    let k := min p (tz n.natAbs)
    ⟨n / (10 ^ k : Nat), (k : Int) - p⟩

/-- Decimal digits of a natural number, as a string (`Nat.repr`). -/
def natDigits (n : Nat) : String := Nat.repr n

/-- `str()` of a `PyDec`, following the to-scientific-string conversion of
the General Decimal Arithmetic specification (which Python implements):
fixed-point notation when `exp ≤ 0` and `adjusted ≥ -6`, scientific
notation otherwise. -/
def pyDecStr (d : PyDec) : String :=
  let sign := if d.coeff < 0 then "-" else ""
  let s := natDigits d.coeff.natAbs
  let n : Int := s.length
  let adjusted : Int := d.exp + n - 1
  if d.exp ≤ 0 ∧ -6 ≤ adjusted then
    if d.exp = 0 then sign ++ s
    else if 0 ≤ adjusted then
      sign ++ (s.take (adjusted + 1).toNat) ++ "." ++ (s.drop (adjusted + 1).toNat)
    else
      sign ++ "0." ++ String.mk (List.replicate (-adjusted - 1).toNat '0') ++ s
  else
    let head := s.take 1
    let tail := s.drop 1
    sign ++ head ++ (if tail.isEmpty then "" else "." ++ tail)
      ++ "E" ++ (if 0 ≤ adjusted then "+" else "") ++ adjusted.repr

/-- `AssetMapping.normalize_amount`: `Decimal(raw) / Decimal(10 ** decimals)`
with the decimals of the asset (default 8). -/
def normalize_amount (assetId : String) (raw : Int) : PyDec :=
  pyDivPow raw (get_asset_decimals assetId)

/-- Python `int()` of an exact decimal value: truncation toward zero. -/
def pyInt (q : ℚ) : Int := q.num.tdiv (q.den : Int)

/-- `AssetMapping.denormalize_amount`:
`int(decimal_amount * Decimal(10 ** decimals))`. -/
def denormalize_amount (assetId : String) (x : ℚ) : Int :=
  pyInt (x * (10 : ℚ) ^ get_asset_decimals assetId)

/-! ## Function and address registries (`mappings/functions.py`,
`mappings/addresses.py`, `mappings/classes.py`) -/

/-- `SWAP_FUNCTIONS`. -/
def SWAP_FUNCTIONS : List String :=
  ["swap", "swapWithReferral", "swapToExactAmount", "swapFromExactAmount"]

/-- `STAKING_FUNCTIONS`. -/
def STAKING_FUNCTIONS : List String :=
  ["stake", "unstake", "claim", "claimReward", "claimIndexRewards",
   "unstakeIndex", "stakeIndex"]

/-- `FunctionMapping.is_swap_function`. -/
def is_swap_function (fn : String) : Bool := SWAP_FUNCTIONS.contains fn

/-- `FunctionMapping.is_staking_function` (`mappings/classes.py`). -/
def is_staking_function (fn : String) : Bool := STAKING_FUNCTIONS.contains fn

/-- `STAKING_ADDRESSES` (`mappings/addresses.py`). -/
def STAKING_ADDRESSES : List String :=
  ["3PFTbywqxtFfukX3HyT881g4iW5K4QL3FAS",
   "3PKUxbZaSYfsR7wu2HaAgiirHYwAMupDrYW",
   "3PGrthrFFZVfvZeCyrZmEXJ1P29ViPbcy5g",
   "3PEwRcYNAUtoFvKpBhKoiwajnZfdoDR6h4h"]

/-- `LENDING_ADDRESSES` (= `PUZZLE_LEND_ADDRESSES`). -/
def LENDING_ADDRESSES : List String :=
  ["3P4uA5etnZi4AmBabKinq2bMiWU8KcnHZdH",
   "3P8Df2b7ywHtLBHBe8PBVQYd3A5MdEEJAou",
   "3P4DK5VzDwL3vfc5ahUEhtoe5ByZNyacJ3X",
   "3PHpuQUPVUoR3AYzFeJzeWJfYLsLTmWssVH",
   "3P4QjKNNVnEJdmcvPezmoTvsqpmhtxX2SaA"]

/-- `CORE_PROTOCOL_ADDRESSES`. -/
def CORE_PROTOCOL_ADDRESSES : List String :=
  ["3P8d1E1BLKoD52y3bQJ1bDTd2TD1gpaLn9t",
   "3P8eeDzUnoDNbQjW617pAe76cEUDQsP1m1V",
   "3PFkgvC9y6zHy64zEAscKKgaNY3yipiLqbW",
   "3PGFHzVGT4NTigwCKP1NcwoXkodVZwvBuuU",
   "3PFB6LJyShsCKEA1AU1U1WLbDazqyj6ZL9b"]

/-- `PROTOCOL_FEES_COLLECTORS`. -/
def PROTOCOL_FEES_COLLECTORS : List String :=
  ["3P4kBiU4wr2yV1S5gMfu3MdkVvy7kxXHsKe",
   "3PFWAVKmXjfHXyzJb12jCbhP4Uhi9t4uWiD",
   "3PFTbywqxtFfukX3HyT881g4iW5K4QL3FAS"]

/-- `ALL_IMPORTANT_ADDRESSES`. -/
def ALL_IMPORTANT_ADDRESSES : List String :=
  STAKING_ADDRESSES ++ LENDING_ADDRESSES ++ CORE_PROTOCOL_ADDRESSES
    ++ PROTOCOL_FEES_COLLECTORS

/-- `ADDRESS_TYPES` lookup, with fallback `"unknown"`
(`get_address_type`). -/
def get_address_type (address : String) : String :=
  match ([("3PFTbywqxtFfukX3HyT881g4iW5K4QL3FAS", "staking"),
          ("3PKUxbZaSYfsR7wu2HaAgiirHYwAMupDrYW", "staking"),
          ("3PGrthrFFZVfvZeCyrZmEXJ1P29ViPbcy5g", "staking"),
          ("3PEwRcYNAUtoFvKpBhKoiwajnZfdoDR6h4h", "staking"),
          ("3P4uA5etnZi4AmBabKinq2bMiWU8KcnHZdH", "lending"),
          ("3P8Df2b7ywHtLBHBe8PBVQYd3A5MdEEJAou", "lending"),
          ("3P4DK5VzDwL3vfc5ahUEhtoe5ByZNyacJ3X", "lending"),
          ("3PHpuQUPVUoR3AYzFeJzeWJfYLsLTmWssVH", "lending"),
          ("3P4QjKNNVnEJdmcvPezmoTvsqpmhtxX2SaA", "lending"),
          ("3P8d1E1BLKoD52y3bQJ1bDTd2TD1gpaLn9t", "oracle"),
          ("3P8eeDzUnoDNbQjW617pAe76cEUDQsP1m1V", "booster"),
          ("3PFkgvC9y6zHy64zEAscKKgaNY3yipiLqbW", "nft"),
          ("3PGFHzVGT4NTigwCKP1NcwoXkodVZwvBuuU", "aggregator"),
          ("3PFB6LJyShsCKEA1AU1U1WLbDazqyj6ZL9b", "trading")].find?
            (fun p => p.1 == address)) with
  | some p => p.2
  | none => "unknown"

/-- `AddressMapping.get_pool_addresses` (`mappings/classes.py`): the
important addresses whose type is `"pool"`. -/
def get_pool_addresses : List String :=
  ALL_IMPORTANT_ADDRESSES.filter (fun a => get_address_type a == "pool")

/-! ## Transformer input model (`models/blockchain.py` and the raw dicts) -/

/-- One `payment` entry of an invoke: `{assetId, amount}` (raw chain-native
amount). -/
structure Payment where
  assetId : Option String
  amount : Nat
deriving DecidableEq

/-- One `stateChanges.transfers` entry: `{address, asset, amount}`. -/
structure Transfer where
  address : String
  asset : Option String
  amount : Nat
deriving DecidableEq

/-- One `stateChanges.data` entry: `{key, value}` (integer-valued entries,
which are the ones the staking path consumes). -/
structure DataEntry where
  key : String
  value : Int
deriving DecidableEq

/-- The `raw_data` dict of a transaction as the transformers read it; the
`id`/`height`/`timestamp` fields are the ones stamped onto
`RelevantInvocation` records and are read with `[...]` by
`_extract_staking_from_data_entries` (hence `Option`). -/
structure InvokeData where
  id : Option String
  height : Option Int
  timestamp : Option Int
  dApp : Option String
  callFn : Option String
  payment : List Payment
  transfers : List Transfer
  dataEntries : List DataEntry
deriving DecidableEq

/-- `WavesTransaction` (`models/blockchain.py`). -/
structure WTx where
  id : String
  height : Int
  timestamp : Int
  sender : String
  txType : Int
  rawData : Option InvokeData
deriving DecidableEq

/-- `timestamp_dt`: `datetime.fromtimestamp(timestamp / 1000)`, modelled as
the number of seconds. -/
def tsSec (ms : Int) : ℚ := (ms : ℚ) / 1000

/-- Python's `x or default` for an optional string: `None` and `""` both
fall back to the default. -/
def pyOr (o : Option String) (d : String) : String :=
  match o with
  | none => d
  | some s => if s = "" then d else s

/-- Whether `sub` is a prefix of `s`, at the character level. -/
def isPrefixChars : List Char → List Char → Bool
  | [], _ => true
  | _ :: _, [] => false
  | c :: cs, d :: ds => c == d && isPrefixChars cs ds

/-- Whether `sub` occurs somewhere in `s`, at the character level. -/
def containsChars (sub : List Char) : List Char → Bool
  | [] => isPrefixChars sub []
  | c :: cs => isPrefixChars sub (c :: cs) || containsChars sub cs

/-- Python's substring test `sub in s`. -/
def strContains (s sub : String) : Bool := containsChars sub.data s.data

/-- Python's `str.lower()` (ASCII, which is all the source compares). -/
def strToLower (s : String) : String := String.mk (s.data.map Char.toLower)

/-- The characters before the first `'_'`. -/
def takeBeforeUnderscore : List Char → List Char
  | [] => []
  | c :: cs => if c == '_' then [] else c :: takeBeforeUnderscore cs

/-- Python's `key.split("_")[0]`: the part of the key before the first
underscore (the whole key when it has none). -/
def stakerFromKey (key : String) : String :=
  String.mk (takeBeforeUnderscore key.data)

/-- `FunctionMapping.extract_function_from_invoke`.
Modelled from the spec: the function itself is not under `src/` (only its
callers and its unit test are); the spec's data model says an invocation
carries `call.function` (the invoked function name), and the test expects
the lookup to return the function name of `call` and `None` when absent. -/
def extract_function_from_invoke (rd : InvokeData) : Option String := rd.callFn

/-! ## Swap transformer (`transformers/swaps.py`) -/

/-- `SwapData` (`models/blockchain.py`), with `Decimal` fields as `ℚ`. -/
structure SwapData where
  id : String
  transaction_id : String
  height : Int
  timestamp : Int
  pool_address : String
  trader_address : String
  asset_in_id : String
  asset_out_id : String
  amount_in : ℚ
  amount_out : ℚ
  amount_in_usd : Option ℚ
  amount_out_usd : Option ℚ
  volume_usd : Option ℚ
  pool_fee : Option ℚ
  protocol_fee : Option ℚ
deriving DecidableEq

/-- The protocol-fee collector addresses hardcoded in
`SwapTransformer._extract_protocol_fee`. -/
def swap_protocol_fee_addresses : List String :=
  ["3PFTbywqxtFfukX3HyT881g4iW5K4QL3FAS",
   "3P4kBiU4wr2yV1S5gMfu3MdkVvy7kxXHsKe"]

namespace SwapTransformer

/-- `SwapTransformer._is_swap_transaction`. -/
def is_swap_transaction (tx : WTx) : Bool :=
  if tx.txType != 16 then false
  else if get_pool_addresses.contains tx.sender then true
  else match tx.rawData with
       | none => false
       | some rd =>
         (match rd.dApp with
          | some d => d != "" && get_pool_addresses.contains d
          | none => false)
         || (match extract_function_from_invoke rd with
             | some fn => fn != "" && is_swap_function fn
             | none => false)

/-- The dict returned by `SwapTransformer._parse_swap_details`. -/
structure SwapDetails where
  asset_in_id : String
  asset_out_id : String
  amount_in : ℚ
  amount_out : ℚ
  amount_in_usd : Option ℚ
  amount_out_usd : Option ℚ
  volume_usd : Option ℚ
  pool_fee : Option ℚ
  protocol_fee : Option ℚ

/-- `SwapTransformer._parse_swap_details`: input side from the first
`payment` entry (no payment ⇒ no event), output side from the first
transfer addressed to the sender (none ⇒ no event); `_calculate_usd_value`
currently always returns `None`, hence so do the USD fields. -/
def parse_swap_details (rd : InvokeData) (tx : WTx) : Option SwapDetails :=
  match rd.payment with
  | [] => none
  | p :: _ =>
    let asset_in := pyOr p.assetId WAVES_ID
    let amount_in := (normalize_amount asset_in p.amount).toRat
    match rd.transfers.find? (fun t => t.address == tx.sender) with
    | none => none
    | some t =>
      let asset_out := pyOr t.asset WAVES_ID
      let amount_out := (normalize_amount asset_out t.amount).toRat
      let pool_fee :=
        (rd.dataEntries.find? (fun e => strContains (strToLower e.key) "fee")).map
          (fun e => (e.value : ℚ))
      let protocol_fee :=
        (rd.transfers.find?
            (fun t2 => swap_protocol_fee_addresses.contains t2.address)).map
          (fun t2 => (t2.amount : ℚ))
      some ⟨asset_in, asset_out, amount_in, amount_out, none, none, none,
            pool_fee, protocol_fee⟩

/-- `SwapTransformer._extract_swap_data`. -/
def extract_swap_data (tx : WTx) : Option SwapData :=
  match tx.rawData with
  | none => none
  | some rd =>
    match rd.dApp with
    | none => none
    | some d =>
      if d = "" then none
      else
        match extract_function_from_invoke rd with
        | none => none
        | some fn =>
          if fn = "" then none
          else if !is_swap_function fn then none
          else
            (parse_swap_details rd tx).map (fun det =>
              { id := tx.id ++ "_" ++ det.asset_in_id ++ "_" ++ det.asset_out_id,
                transaction_id := tx.id, height := tx.height,
                timestamp := tx.timestamp, pool_address := d,
                trader_address := tx.sender,
                asset_in_id := det.asset_in_id, asset_out_id := det.asset_out_id,
                amount_in := det.amount_in, amount_out := det.amount_out,
                amount_in_usd := det.amount_in_usd,
                amount_out_usd := det.amount_out_usd,
                volume_usd := det.volume_usd, pool_fee := det.pool_fee,
                protocol_fee := det.protocol_fee })

/-- `SwapTransformer.transform_transactions`. -/
def transform_transactions (txs : List WTx) : List SwapData :=
  txs.filterMap (fun tx =>
    if is_swap_transaction tx then extract_swap_data tx else none)

/-- Python truthiness of an optional `Decimal`: `None` and `0` are falsy. -/
def usdTruthy (o : Option ℚ) : Bool :=
  match o with
  | none => false
  | some x => x != 0

/-- The body of the `for swap in swaps` loop of
`SwapTransformer.calculate_usd_values`: re-normalize the swap's amounts with
the supplied decimals map (default 8), multiply by the per-asset price
(`dict.get(asset, Decimal(0))`, the product guarded by Python truthiness of
the price), and compute `volume_usd` with Python truthiness of the USD
values. -/
def calculate_usd_one (price : String → Option ℚ)
    (asset_decimals : String → Option Nat) (s : SwapData) : SwapData :=
  let in_decimals := (asset_decimals s.asset_in_id).getD 8
  let out_decimals := (asset_decimals s.asset_out_id).getD 8
  let normalized_in := s.amount_in / (10 : ℚ) ^ in_decimals
  let normalized_out := s.amount_out / (10 : ℚ) ^ out_decimals
  let in_price := (price s.asset_in_id).getD 0
  let out_price := (price s.asset_out_id).getD 0
  let amount_in_usd := if in_price != 0 then some (normalized_in * in_price)
                       else none
  let amount_out_usd := if out_price != 0 then some (normalized_out * out_price)
                        else none
  let volume_usd :=
    if usdTruthy amount_in_usd && usdTruthy amount_out_usd then
      some ((amount_in_usd.getD 0 + amount_out_usd.getD 0) / 2)
    else if usdTruthy amount_in_usd then amount_in_usd
    else if usdTruthy amount_out_usd then amount_out_usd
    else none
  { s with amount_in_usd := amount_in_usd, amount_out_usd := amount_out_usd,
           volume_usd := volume_usd }

/-- `SwapTransformer.calculate_usd_values`: the loop over the swap list. -/
def calculate_usd_values (swaps : List SwapData) (price : String → Option ℚ)
    (asset_decimals : String → Option Nat) : List SwapData :=
  swaps.map (calculate_usd_one price asset_decimals)

/-! ### Specification-side USD pass (amended wording), for refinement -/

/-- A USD value with zero treated as absent (the amended volume rule). -/
def nzOpt (o : Option ℚ) : Option ℚ :=
  match o with
  | none => none
  | some x => if x = 0 then none else some x

/-- The amended claim's USD computation for one swap: USD value =
amount normalized by `10 ^ d` (decimals from the supplied map, default 8)
times the price, `None` when the price is missing or zero; volume = average
of the two USD values when both are present and nonzero, the nonzero one
when exactly one is, `None` otherwise. -/
def usd_spec_one (price : String → Option ℚ) (asset_decimals : String → Option Nat)
    (s : SwapData) : SwapData :=
  let usdOf (asset : String) (amount : ℚ) : Option ℚ :=
    match price asset with
    | none => none
    | some p =>
      if p = 0 then none
      else some (amount / (10 : ℚ) ^ (asset_decimals asset).getD 8 * p)
  let aIn := usdOf s.asset_in_id s.amount_in
  let aOut := usdOf s.asset_out_id s.amount_out
  let vol :=
    match nzOpt aIn, nzOpt aOut with
    | some a, some b => some ((a + b) / 2)
    | some a, none => some a
    | none, some b => some b
    | none, none => none
  { s with amount_in_usd := aIn, amount_out_usd := aOut, volume_usd := vol }

end SwapTransformer

/-! ## Staking transformer (`transformers/staking.py`) -/

/-- `StakingEventData` (`models/blockchain.py`), with `Decimal` fields as
`ℚ` and the `datetime` timestamp in seconds. -/
structure StakingEventData where
  id : String
  transaction_id : String
  height : Int
  timestamp : ℚ
  staker_address : String
  event_type : String
  amount : ℚ
  amount_usd : Option ℚ
deriving DecidableEq

namespace StakingTransformer

/-- `StakingTransformer.__init__`: `puzzle_decimals = 8`. -/
def puzzle_decimals : Nat := 8

/-- `StakingTransformer._determine_event_type`: the fixed
function-to-event-type table. -/
def determine_event_type (fn : String) : Option String :=
  match ([("stake", "stake"), ("unstake", "unstake"), ("withdraw", "unstake"),
          ("claim", "claim"), ("claimRewards", "claim"),
          ("compound", "compound"),
          ("emergencyWithdraw", "emergency_withdraw")].find?
            (fun p => p.1 == fn)) with
  | some p => p.2
  | none => none

/-- `StakingTransformer._parse_staking_details`, returning the computed
`Decimal` amount (the returned dict's `amount_usd` is always `None` because
`_calculate_usd_value` is a stub).  For `stake` the amount is the first
payment when its asset is the Puzzle token; for `unstake`/`claim`/`compound`
it is the first transfer addressed to the sender whose asset is the Puzzle
token; otherwise `Decimal(0)`. -/
def parse_staking_details (rd : InvokeData) (tx : WTx) (event_type : String) :
    PyDec :=
  if event_type == "stake" then
    match rd.payment with
    | [] => PyDec.zero
    | p :: _ =>
      let asset := pyOr p.assetId WAVES_ID
      if asset == PUZZLE_TOKEN_ID then
        normalize_amount asset p.amount
      else PyDec.zero
  else if event_type == "unstake" || event_type == "claim"
          || event_type == "compound" then
    match rd.transfers.find?
        (fun t => t.address == tx.sender
          && pyOr t.asset WAVES_ID == PUZZLE_TOKEN_ID) with
    | some t => normalize_amount PUZZLE_TOKEN_ID t.amount
    | none => PyDec.zero
  else PyDec.zero

/-- `StakingTransformer._extract_staking_data`: requires a dict `raw_data`
with a truthy `dApp`, a truthy function name that passes
`is_staking_function`, and a table entry in `determine_event_type`; the
event id is `f"{transaction.id}_{event_type}_{staking_details['amount']}"`. -/
def extract_staking_data (tx : WTx) : Option StakingEventData :=
  match tx.rawData with
  | none => none
  | some rd =>
    match rd.dApp with
    | none => none
    | some d =>
      if d = "" then none
      else
        match extract_function_from_invoke rd with
        | none => none
        | some fn =>
          if fn = "" then none
          else if !is_staking_function fn then none
          else
            match determine_event_type fn with
            | none => none
            | some event_type =>
              let amountDec := parse_staking_details rd tx event_type
              some { id := tx.id ++ "_" ++ event_type ++ "_"
                            ++ pyDecStr amountDec,
                     transaction_id := tx.id, height := tx.height,
                     timestamp := tsSec tx.timestamp,
                     staker_address := tx.sender, event_type := event_type,
                     amount := amountDec.toRat, amount_usd := none }

/-- `StakingTransformer._extract_staking_from_data_entries`: scans
`stateChanges.data` for keys containing `"_staked"` with positive value; the
staker address is the key's prefix before the first underscore, the amount
is `Decimal(value) / 10 ** 8`, and the event id is
`f"{tx_id}_stake_update_{staker_address}_{value}"`.  A `KeyError` on the
dict's `id`/`height`/`timestamp` is caught and yields no events. -/
def extract_staking_from_data_entries (rd : InvokeData) :
    List StakingEventData :=
  match rd.id, rd.height, rd.timestamp with
  | some tid, some h, some ts =>
    rd.dataEntries.filterMap (fun e =>
      if strContains e.key "_staked" && 0 < e.value then
        some { id := tid ++ "_stake_update_"
                     ++ stakerFromKey e.key ++ "_" ++ e.value.repr,
               transaction_id := tid, height := h, timestamp := tsSec ts,
               staker_address := stakerFromKey e.key,
               event_type := "stake_update",
               amount := (pyDivPow e.value puzzle_decimals).toRat,
               amount_usd := none }
      else none)
  | _, _, _ => []

/-- `StakingTransformer.transform_transactions`: both extraction paths run
independently per transaction and are concatenated. -/
def transform_transactions (txs : List WTx) : List StakingEventData :=
  txs.flatMap (fun tx =>
    (extract_staking_data tx).toList
      ++ (match tx.rawData with
          | none => []
          | some rd => extract_staking_from_data_entries rd))

/-! ### Aggregation (`aggregate_staking_stats`) -/

/-- Lookup in an insertion-ordered balance table (Python dict). -/
def lookupBal (m : List (String × ℚ)) (k : String) : Option ℚ :=
  (m.find? (fun p => p.1 == k)).map (fun p => p.2)

/-- In-place update of a key's value, appending at the end when absent
(Python dict assignment). -/
def setBal : List (String × ℚ) → String → ℚ → List (String × ℚ)
  | [], k, v => [(k, v)]
  | (k1, v1) :: rest, k, v =>
    if k1 == k then (k1, v) :: rest else (k1, v1) :: setBal rest k v

/-- One fold step of `aggregate_staking_stats`: ensure the staker has an
entry (initialized to 0), then `stake` adds, `unstake` subtracts,
`stake_update` overwrites, and any other event type leaves the balance. -/
def stepBal (m : List (String × ℚ)) (e : StakingEventData) :
    List (String × ℚ) :=
  let cur := (lookupBal m e.staker_address).getD 0
  let m1 := if (lookupBal m e.staker_address).isSome then m
            else m ++ [(e.staker_address, 0)]
  if e.event_type == "stake" then setBal m1 e.staker_address (cur + e.amount)
  else if e.event_type == "unstake" then
    setBal m1 e.staker_address (cur - e.amount)
  else if e.event_type == "stake_update" then
    setBal m1 e.staker_address e.amount
  else m1

/-- The staker-balance table after folding the whole event list in order. -/
def foldBal (events : List StakingEventData) : List (String × ℚ) :=
  events.foldl stepBal []

/-- The dict returned by `aggregate_staking_stats`. -/
structure StakingStats where
  timestamp : ℚ
  total_staked : ℚ
  unique_stakers : Nat
  staker_balances : List (String × ℚ)
deriving DecidableEq

/-- `StakingTransformer.aggregate_staking_stats`: fold the events, drop
stakers with balance `≤ 0`, sum and count the remaining balances. -/
def aggregate_staking_stats (events : List StakingEventData) (timestamp : ℚ) :
    StakingStats :=
  let active := (foldBal events).filter (fun p => 0 < p.2)
  { timestamp := timestamp,
    total_staked := (active.map (fun p => p.2)).sum,
    unique_stakers := active.length,
    staker_balances := active }

end StakingTransformer

/-! ## Batched streaming extractor (`fetch_all_transactions`,
`load_transactions_from_files`) -/

namespace Extractor

/-- The relevant transactions of one fetched batch: `_find_relevant_transactions`
applied to each transaction, concatenated (`none` = an uncaught exception in
one of the calls). -/
def batch_relevant (target : String) (vip : List String) :
    List Tx → Option (List RelTx)
  | [] => some []
  | tx :: rest =>
    match find_relevant_transactions tx target vip,
          batch_relevant target vip rest with
    | some l, some ls => some (l ++ ls)
    | _, _ => none

/-- The state of the fetch loop: the in-memory buffer, the spill files
written so far (index = position), and how many threshold-triggered spills
have happened. -/
structure FetchState where
  buffer : List RelTx
  files : List (List RelTx)
  spills : Nat

/-- The `while has_more` loop of `fetch_all_transactions`, consuming the
pages `(batch, has_more)` the transaction source returns in order: an empty
batch breaks the loop; each batch's relevant transactions are appended to
the buffer; when the buffer's length exceeds the threshold
(`settings.max_transactions_in_memory`) the buffer is written as the next
numbered file and cleared. -/
def fetch_loop (target : String) (vip : List String) (threshold : Nat) :
    List (List Tx × Bool) → FetchState → Option FetchState
  | [], st => some st
  | (batch, hasMore) :: rest, st =>
    if batch.isEmpty then some st
    else
      match batch_relevant target vip batch with
      | none => none
      | some rel =>
        let buf := st.buffer ++ rel
        let st1 : FetchState :=
          if threshold < buf.length then
            ⟨[], st.files ++ [buf], st.spills + 1⟩
          else ⟨buf, st.files, st.spills⟩
        if hasMore then fetch_loop target vip threshold rest st1
        else some st1

/-- `fetch_all_transactions`: run the loop, flush the remaining buffer as a
final file when any file was written, and reverse the in-memory list when no
file was.  Returns `(in-memory list, file_count, files, threshold spills)`. -/
def fetch_all_transactions (target : String) (vip : List String)
    (threshold : Nat) (pages : List (List Tx × Bool)) :
    Option (List RelTx × Nat × List (List RelTx) × Nat) :=
  match fetch_loop target vip threshold pages ⟨[], [], 0⟩ with
  | none => none
  | some st =>
    let flushed : FetchState :=
      if 0 < st.files.length && !st.buffer.isEmpty then
        ⟨[], st.files ++ [st.buffer], st.spills⟩
      else st
    let result := if flushed.files.length = 0 then flushed.buffer.reverse
                  else flushed.buffer
    some (result, flushed.files.length, flushed.files, flushed.spills)

/-- `load_transactions_from_files`: read files from the highest index down
to 0, reverse each file's list, and concatenate. -/
def load_transactions_from_files (files : List (List RelTx)) : List RelTx :=
  (files.reverse.map List.reverse).flatten

end Extractor

/-! ## Supporting lemmas -/

theorem tzGo_dvd (fuel : Nat) : ∀ n : Nat, 10 ^ tzGo fuel n ∣ n := by
  induction fuel with
  | zero => intro n; simp [tzGo]
  | succ f ih =>
    intro n
    unfold tzGo
    split
    · next hc =>
      have h10 : 10 ∣ n := Nat.dvd_of_mod_eq_zero hc.2
      have hrec := ih (n / 10)
      calc 10 ^ (tzGo f (n / 10) + 1) = 10 ^ tzGo f (n / 10) * 10 := by
              rw [pow_succ]
        _ ∣ (n / 10) * 10 := mul_dvd_mul hrec dvd_rfl
        _ = n := Nat.div_mul_cancel h10
    · simp

theorem pyDivPow_toRat (n : Int) (p : Nat) :
    (pyDivPow n p).toRat = (n : ℚ) / (10 : ℚ) ^ p := by
  unfold pyDivPow
  split
  · next h => simp [h, PyDec.toRat]
  · next h =>
    set k := min p (tz n.natAbs) with hk
    have hdvdN : (10 : Nat) ^ k ∣ n.natAbs :=
      dvd_trans (pow_dvd_pow 10 (min_le_right p (tz n.natAbs))) (tzGo_dvd _ _)
    have hdvdZ : (((10 : ℕ) ^ k : ℕ) : ℤ) ∣ n := by
      rw [← Int.dvd_natAbs]
      exact_mod_cast Int.natCast_dvd_natCast.mpr hdvdN
    have hcast : ((n / ((10 ^ k : ℕ) : ℤ) : ℤ) : ℚ)
        = (n : ℚ) / (((10 ^ k : ℕ) : ℤ) : ℚ) :=
      Int.cast_div_charZero hdvdZ
    unfold PyDec.toRat
    simp only
    rw [hcast, zpow_sub₀ (by norm_num : (10 : ℚ) ≠ 0), zpow_natCast, zpow_natCast]
    have h10p : ((10 : ℚ) ^ p) ≠ 0 := by positivity
    have h10k : ((10 : ℚ) ^ k) ≠ 0 := by positivity
    push_cast
    field_simp

theorem pyInt_intCast (n : Int) : pyInt ((n : ℤ) : ℚ) = n := by
  unfold pyInt
  rw [Rat.num_intCast, Rat.den_intCast]
  exact_mod_cast Int.tdiv_one n

/-! ## Claims -/

/-- C6: for every transaction whose `applicationStatus` is not `"succeeded"`
(including an absent field), `find_relevant_transactions` returns the empty
list, regardless of the transaction's type, contents or nesting. -/
theorem c6_failed_transactions_empty (tx : Tx) (target : String)
    (vip : List String) (h : tx.applicationStatus ≠ some "succeeded") :
    find_relevant_transactions tx target vip = some [] := by
  have hb : (tx.applicationStatus != some "succeeded") = true := by
    simpa [bne_iff_ne] using h
  unfold find_relevant_transactions
  rw [if_pos hb]

theorem c6_witness :
    (Tx.mk 16 none "i" "s" 0 0 (some "T") (some "f")
        (.cons (.node (some "T") (some "f") .nil) .nil) none).applicationStatus
      ≠ some "succeeded"
    ∧ find_relevant_transactions
        (Tx.mk 16 none "i" "s" 0 0 (some "T") (some "f")
          (.cons (.node (some "T") (some "f") .nil) .nil) none) "T" []
      = some [] :=
  ⟨by simp, c6_failed_transactions_empty _ "T" [] (by simp)⟩

/-- C8: for every asset id and every decimal `x` exactly representable at
the asset's registry precision (default 8), normalizing the denormalized
value gives back `x`. -/
theorem c8_roundtrip (assetId : String) (x : ℚ) (n : Int)
    (h : x * (10 : ℚ) ^ get_asset_decimals assetId = (n : ℚ)) :
    (normalize_amount assetId (denormalize_amount assetId x)).toRat = x := by
  have hd : denormalize_amount assetId x = n := by
    unfold denormalize_amount
    rw [h, pyInt_intCast]
  rw [hd]
  unfold normalize_amount
  rw [pyDivPow_toRat]
  have h10 : ((10 : ℚ) ^ get_asset_decimals assetId) ≠ 0 := by positivity
  field_simp
  linarith [h]

theorem c8_witness :
    ((1 : ℚ) / 2) * (10 : ℚ) ^ get_asset_decimals "nosuch"
        = ((50000000 : ℤ) : ℚ)
    ∧ (normalize_amount "nosuch"
        (denormalize_amount "nosuch" ((1 : ℚ) / 2))).toRat = (1 : ℚ) / 2 := by
  have h8 : get_asset_decimals "nosuch" = 8 := by decide
  have hh : ((1 : ℚ) / 2) * (10 : ℚ) ^ get_asset_decimals "nosuch"
      = ((50000000 : ℤ) : ℚ) := by rw [h8]; norm_num
  exact ⟨hh, c8_roundtrip "nosuch" ((1 : ℚ) / 2) 50000000 hh⟩

/-- A node is malformed for the walk at `target` when the relevance test
raises a `KeyError`: `dApp` is missing, or `dApp` does not match `target`
and `call.function` is missing. -/
def malformed_node (target : String) (inv : Invoke) : Prop :=
  inv.dApp = none
    ∨ (∃ d, inv.dApp = some d ∧ d ≠ target ∧ inv.callFn = none)

/-- C10 counterexample: a malformed node (no `dApp`) whose subtree holds a
relevant, well-formed node invoking `"gc"`.  The walk keeps the sibling but
drops the malformed node's entire subtree, so the relevant descendant is
*not* collected, contradicting the claim that every other relevant node is
still collected. -/
theorem c10_counterexample :
    extract_invokes "T" [] 1 2 "x" "S"
        (.cons (.node none (some "g")
            (.cons (.node (some "T") (some "gc") .nil) .nil))
          (.cons (.node (some "T") (some "sib") .nil) .nil))
      = [RelTx.mk "S" 1 2 16 "x" (some "T") (some "sib") .nil]
    ∧ (extract_invokes "T" [] 1 2 "x" "S"
        (.cons (.node none (some "g")
            (.cons (.node (some "T") (some "gc") .nil) .nil))
          (.cons (.node (some "T") (some "sib") .nil) .nil))).all
        (fun r => r.callFn != some "gc") = true :=
  ⟨rfl, rfl⟩

/-- C10 amended: a malformed node is skipped together with its entire
subtree of nested invokes; its siblings and the rest of the tree outside
that subtree are walked unchanged, so exactly the relevant nodes outside the
malformed node's subtree are collected. -/
theorem c10_malformed_skips_subtree (target : String) (vip : List String)
    (height timestamp : Int) (txId sender : String) (inv : Invoke)
    (rest : InvokeList) (hm : malformed_node target inv) :
    extract_invokes target vip height timestamp txId sender (.cons inv rest)
      = extract_invokes target vip height timestamp txId sender rest := by
  obtain ⟨d, f, sub⟩ := inv
  rcases hm with hd | ⟨dv, hd, hne, hf⟩
  · simp only [Invoke.dApp] at hd
    subst hd
    rfl
  · simp only [Invoke.dApp] at hd
    simp only [Invoke.callFn] at hf
    subst hd; subst hf
    have hbeq : (dv == target) = false := by
      simpa using hne
    simp only [extract_invokes, hbeq]
    simp

theorem c10_witness :
    malformed_node "T" (.node (some "X") none
        (.cons (.node (some "T") (some "f") .nil) .nil))
    ∧ extract_invokes "T" [] 1 2 "x" "S"
        (.cons (.node (some "X") none
            (.cons (.node (some "T") (some "f") .nil) .nil))
          (.cons (.node (some "T") (some "sib") .nil) .nil))
      = extract_invokes "T" [] 1 2 "x" "S"
          (.cons (.node (some "T") (some "sib") .nil) .nil) :=
  ⟨Or.inr ⟨"X", rfl, by decide, rfl⟩,
   c10_malformed_skips_subtree "T" [] 1 2 "x" "S" _ _
     (Or.inr ⟨"X", rfl, by decide, rfl⟩)⟩

/-- A succeeded invocation of `claimRewards` on the Puzzle staking contract,
with a Puzzle-token transfer back to the sender. -/
def c3_tx : WTx :=
  { id := "t3", height := 1, timestamp := 1000, sender := "alice",
    txType := 16,
    rawData := some
      { id := some "t3", height := some 1, timestamp := some 1000,
        dApp := some "3PFTbywqxtFfukX3HyT881g4iW5K4QL3FAS",
        callFn := some "claimRewards", payment := [],
        transfers := [⟨"alice", some PUZZLE_TOKEN_ID, 100000000⟩],
        dataEntries := [] } }

/-- C3: the event-type table maps `withdraw`/`claimRewards`/`compound`/
`emergencyWithdraw`, but none of them is in `STAKING_FUNCTIONS`
(the list holds `claimReward`, singular, instead), so the staking-set gate
in `_extract_staking_data` rejects them before the table is consulted and
no event is emitted — here evaluated on a `claimRewards` invocation of the
Puzzle staking contract. -/
theorem c3_staking_gate :
    is_staking_function "claimRewards" = false
    ∧ StakingTransformer.determine_event_type "claimRewards" = some "claim"
    ∧ is_staking_function "withdraw" = false
    ∧ StakingTransformer.determine_event_type "withdraw" = some "unstake"
    ∧ is_staking_function "compound" = false
    ∧ StakingTransformer.determine_event_type "compound" = some "compound"
    ∧ is_staking_function "emergencyWithdraw" = false
    ∧ StakingTransformer.determine_event_type "emergencyWithdraw"
        = some "emergency_withdraw"
    ∧ is_staking_function "claimReward" = true
    ∧ StakingTransformer.determine_event_type "claimReward" = none
    ∧ StakingTransformer.extract_staking_data c3_tx = none
    ∧ StakingTransformer.transform_transactions [c3_tx] = [] := by
  decide

/-- A transaction whose `stateChanges.data` carries a `_staked` entry (the
data-entry extraction path). -/
def c5_tx : WTx :=
  { id := "t5", height := 5, timestamp := 1000, sender := "s5", txType := 16,
    rawData := some
      { id := some "t5", height := some 5, timestamp := some 1000,
        dApp := some "dapp", callFn := none, payment := [], transfers := [],
        dataEntries := [⟨"alice_staked", 100000000⟩] } }

/-- C5 counterexample: the data-entry path builds the id
`{tx_id}_stake_update_{staker}_{raw_value}`, not
`{transaction_id}_{event_type}_{amount}` — the staker address is
interpolated and the raw integer value is used instead of the `Decimal`
amount (which renders as `1` here). -/
theorem c5_counterexample :
    (StakingTransformer.transform_transactions [c5_tx]).map
        (fun e => (e.id, e.event_type))
      = [("t5_stake_update_alice_100000000", "stake_update")]
    ∧ pyDecStr (pyDivPow 100000000 8) = "1"
    ∧ "t5_stake_update_alice_100000000"
        ≠ "t5" ++ "_" ++ "stake_update" ++ "_"
            ++ pyDecStr (pyDivPow 100000000 8) := by
  refine ⟨?_, by decide, by decide⟩
  decide

/-- A swap whose input USD value computes to zero while its output USD
value is positive (prices present for both legs). -/
def c4_swap : SwapData :=
  { id := "i", transaction_id := "t", height := 0, timestamp := 0,
    pool_address := "p", trader_address := "tr", asset_in_id := "A",
    asset_out_id := "B", amount_in := 0, amount_out := 2,
    amount_in_usd := none, amount_out_usd := none, volume_usd := none,
    pool_fee := none, protocol_fee := none }

/-- C4 counterexample: with both prices present (= 1) and decimals 0, the
input USD value is `some 0` and the output USD value is `some 2` — both
present — yet `volume_usd` is `some 2`, not the average `some 1`: Python
truthiness makes a zero USD value drop out of the average. -/
theorem c4_counterexample :
    (SwapTransformer.calculate_usd_values [c4_swap] (fun _ => some 1)
        (fun _ => some 0)).map
        (fun s => (s.amount_in_usd, s.amount_out_usd, s.volume_usd))
      = [(some 0, some 2, some 2)]
    ∧ some (2 : ℚ) ≠ some (((0 : ℚ) + 2) / 2) := by
  constructor
  · norm_num [SwapTransformer.calculate_usd_values,
      SwapTransformer.calculate_usd_one, SwapTransformer.usdTruthy, c4_swap]
  · norm_num

/-- C4 amended: `calculate_usd_values` sets each USD field to the amount
normalized by `10^d` (decimals from the supplied map, default 8) times the
asset's price, and to `None` when the price is missing *or zero*; and it
sets `volume_usd` to the average of the two USD values when both are present
and nonzero, to the nonzero one when exactly one is, and to `None`
otherwise (a USD value of zero counts as absent for the volume rule). -/
theorem c4_usd_semantics (swaps : List SwapData) (price : String → Option ℚ)
    (asset_decimals : String → Option Nat) :
    SwapTransformer.calculate_usd_values swaps price asset_decimals
      = swaps.map (SwapTransformer.usd_spec_one price asset_decimals) := by
  unfold SwapTransformer.calculate_usd_values
  refine List.map_congr_left (fun s _ => ?_)
  unfold SwapTransformer.calculate_usd_one SwapTransformer.usd_spec_one
  rcases hp : price s.asset_in_id with _ | pin
    <;> rcases hq : price s.asset_out_id with _ | pout
    <;> simp only [hp, hq, Option.getD_some, Option.getD_none]
  · simp [SwapTransformer.usdTruthy, SwapTransformer.nzOpt]
  · by_cases h2 : pout = 0
    · simp [h2, SwapTransformer.usdTruthy, SwapTransformer.nzOpt]
    · by_cases h4 : s.amount_out / (10 : ℚ) ^ (asset_decimals s.asset_out_id).getD 8
          * pout = 0
      · simp [h2, h4, SwapTransformer.usdTruthy, SwapTransformer.nzOpt]
      · simp [h2, h4, SwapTransformer.usdTruthy, SwapTransformer.nzOpt]
  · by_cases h1 : pin = 0
    · simp [h1, SwapTransformer.usdTruthy, SwapTransformer.nzOpt]
    · by_cases h3 : s.amount_in / (10 : ℚ) ^ (asset_decimals s.asset_in_id).getD 8
          * pin = 0
      · simp [h1, h3, SwapTransformer.usdTruthy, SwapTransformer.nzOpt]
      · simp [h1, h3, SwapTransformer.usdTruthy, SwapTransformer.nzOpt]
  · by_cases h1 : pin = 0
      <;> by_cases h2 : pout = 0
      <;> by_cases h3 : s.amount_in / (10 : ℚ) ^ (asset_decimals s.asset_in_id).getD 8
            * pin = 0
      <;> by_cases h4 : s.amount_out / (10 : ℚ) ^ (asset_decimals s.asset_out_id).getD 8
            * pout = 0
      <;> simp [h1, h2, h3, h4, SwapTransformer.usdTruthy, SwapTransformer.nzOpt]

theorem extract_staking_id (tx : WTx) (ev : StakingEventData)
    (h : StakingTransformer.extract_staking_data tx = some ev) :
    ∃ dec : PyDec, ev.amount = dec.toRat
      ∧ ev.id = ev.transaction_id ++ "_" ++ ev.event_type ++ "_"
          ++ pyDecStr dec := by
  unfold StakingTransformer.extract_staking_data at h
  repeat' split at h
  all_goals cases h
  all_goals exact ⟨_, rfl, rfl⟩

theorem data_entries_event_shape (rd : InvokeData) (ev : StakingEventData)
    (h : ev ∈ StakingTransformer.extract_staking_from_data_entries rd) :
    ev.event_type = "stake_update"
    ∧ ∃ v : Int, 0 < v ∧ ev.amount = (pyDivPow v 8).toRat
      ∧ ev.id = ev.transaction_id ++ "_stake_update_" ++ ev.staker_address
          ++ "_" ++ v.repr := by
  unfold StakingTransformer.extract_staking_from_data_entries at h
  split at h
  · rw [List.mem_filterMap] at h
    obtain ⟨e, _, hsome⟩ := h
    split at hsome
    · next hcond =>
      cases hsome
      refine ⟨rfl, e.value, ?_, rfl, rfl⟩
      have := (Bool.and_eq_true _ _).mp hcond
      exact of_decide_eq_true this.2
    · cases hsome
  · simp at h

/-- C5 amended: every staking event from the invoke-function path has id
`{transaction_id}_{event_type}_{amount}` (with the `Decimal` amount
rendered by `str`), while every event from the data-entry path is a
`stake_update` whose id is
`{transaction_id}_stake_update_{staker_address}_{raw_value}` with the raw
positive integer value, not the normalized amount. -/
theorem c5_event_id_format (txs : List WTx) (ev : StakingEventData)
    (h : ev ∈ StakingTransformer.transform_transactions txs) :
    (∃ dec : PyDec, ev.amount = dec.toRat
       ∧ ev.id = ev.transaction_id ++ "_" ++ ev.event_type ++ "_"
           ++ pyDecStr dec)
    ∨ (ev.event_type = "stake_update"
       ∧ ∃ v : Int, 0 < v ∧ ev.amount = (pyDivPow v 8).toRat
         ∧ ev.id = ev.transaction_id ++ "_stake_update_"
             ++ ev.staker_address ++ "_" ++ v.repr) := by
  unfold StakingTransformer.transform_transactions at h
  rw [List.mem_flatMap] at h
  obtain ⟨tx, _, hmem⟩ := h
  rw [List.mem_append] at hmem
  rcases hmem with h1 | h2
  · left
    rcases hx : StakingTransformer.extract_staking_data tx with _ | e
    · rw [hx] at h1
      simp [Option.toList] at h1
    · rw [hx] at h1
      simp [Option.toList] at h1
      subst h1
      exact extract_staking_id tx ev hx
  · right
    rcases hrd : tx.rawData with _ | rd
    · rw [hrd] at h2
      simp at h2
    · rw [hrd] at h2
      exact data_entries_event_shape rd ev h2

/-- The single event extracted from `c5_tx` (fields written with the same
expressions the transformer computes). -/
def c5_ev : StakingEventData :=
  { id := "t5_stake_update_alice_100000000", transaction_id := "t5",
    height := 5, timestamp := tsSec 1000, staker_address := "alice",
    event_type := "stake_update",
    amount := (pyDivPow 100000000 StakingTransformer.puzzle_decimals).toRat,
    amount_usd := none }

theorem c5_event_id_format_witness :
    c5_ev ∈ StakingTransformer.transform_transactions [c5_tx]
    ∧ ((∃ dec : PyDec, c5_ev.amount = dec.toRat
          ∧ c5_ev.id = c5_ev.transaction_id ++ "_" ++ c5_ev.event_type ++ "_"
              ++ pyDecStr dec)
       ∨ (c5_ev.event_type = "stake_update"
          ∧ ∃ v : Int, 0 < v ∧ c5_ev.amount = (pyDivPow v 8).toRat
            ∧ c5_ev.id = c5_ev.transaction_id ++ "_stake_update_"
                ++ c5_ev.staker_address ++ "_" ++ v.repr)) := by
  have hm : c5_ev ∈ StakingTransformer.transform_transactions [c5_tx] := by
    have he : StakingTransformer.transform_transactions [c5_tx] = [c5_ev] := rfl
    rw [he]
    exact List.mem_singleton_self _
  exact ⟨hm, c5_event_id_format [c5_tx] c5_ev hm⟩

theorem normalize_amount_toRat (assetId : String) (raw : Int) :
    (normalize_amount assetId raw).toRat
      = (raw : ℚ) / (10 : ℚ) ^ get_asset_decimals assetId :=
  pyDivPow_toRat raw (get_asset_decimals assetId)

theorem extract_swap_shape (tx : WTx) (s : SwapData)
    (h : SwapTransformer.extract_swap_data tx = some s) :
    ∃ rd, tx.rawData = some rd
      ∧ (∃ p rest, rd.payment = p :: rest
          ∧ s.asset_in_id = pyOr p.assetId WAVES_ID
          ∧ s.amount_in = (normalize_amount (pyOr p.assetId WAVES_ID) p.amount).toRat)
      ∧ (∃ t, rd.transfers.find? (fun t2 => t2.address == tx.sender) = some t
          ∧ s.asset_out_id = pyOr t.asset WAVES_ID
          ∧ s.amount_out = (normalize_amount (pyOr t.asset WAVES_ID) t.amount).toRat) := by
  unfold SwapTransformer.extract_swap_data at h
  rcases hrd : tx.rawData with _ | rd <;> rw [hrd] at h
  · simp at h
  simp only [] at h
  rcases hd : rd.dApp with _ | d <;> rw [hd] at h
  · simp at h
  simp only [] at h
  by_cases hde : d = ""
  · rw [if_pos hde] at h; cases h
  rw [if_neg hde] at h
  rcases hf : extract_function_from_invoke rd with _ | fn <;> rw [hf] at h
  · simp at h
  simp only at h
  by_cases hfe : fn = ""
  · rw [if_pos hfe] at h; cases h
  rw [if_neg hfe] at h
  by_cases hsw : is_swap_function fn
  · rw [hsw] at h
    simp only [Bool.not_true, Bool.false_eq_true, if_false] at h
    unfold SwapTransformer.parse_swap_details at h
    rcases hp : rd.payment with _ | ⟨p, rest⟩ <;> rw [hp] at h
    · simp at h
    rcases hfind : rd.transfers.find? (fun t2 => t2.address == tx.sender)
        with _ | t <;> rw [hfind] at h
    · simp at h
    simp only [Option.map_some] at h
    injection h with h1
    subst h1
    exact ⟨rd, rfl, ⟨p, rest, hp, rfl, rfl⟩, ⟨t, hfind, rfl, rfl⟩⟩
  · rw [Bool.not_eq_true] at hsw
    rw [hsw] at h
    simp only [Bool.not_false, if_true] at h
    cases h

/-- C7: every swap event the transformer produces has non-negative
normalized amounts, each equal to the corresponding raw amount (first
payment entry, first transfer back to the trader) divided by
`10 ^ decimals` with decimals from the asset registry; an asset absent from
the registry uses 8 decimals, so 100000000 raw units of it normalize to 1. -/
theorem c7_swap_amount_normalization (txs : List WTx) (s : SwapData)
    (h : s ∈ SwapTransformer.transform_transactions txs) :
    0 ≤ s.amount_in ∧ 0 ≤ s.amount_out
    ∧ (∃ tx ∈ txs, ∃ rd, tx.rawData = some rd
        ∧ (∃ p rest, rd.payment = p :: rest
            ∧ s.asset_in_id = pyOr p.assetId WAVES_ID
            ∧ s.amount_in
                = (p.amount : ℚ) / (10 : ℚ) ^ get_asset_decimals s.asset_in_id)
        ∧ (∃ t, rd.transfers.find? (fun t2 => t2.address == tx.sender) = some t
            ∧ s.asset_out_id = pyOr t.asset WAVES_ID
            ∧ s.amount_out
                = (t.amount : ℚ) / (10 : ℚ) ^ get_asset_decimals s.asset_out_id))
    ∧ (normalize_amount "unregistered-asset" 100000000).toRat = 1 := by
  unfold SwapTransformer.transform_transactions at h
  rw [List.mem_filterMap] at h
  obtain ⟨tx, htx, hsome⟩ := h
  by_cases hq : SwapTransformer.is_swap_transaction tx
  swap
  · rw [Bool.not_eq_true] at hq
    rw [hq] at hsome
    simp at hsome
  rw [hq] at hsome
  simp only [if_true] at hsome
  obtain ⟨rd, hrd, ⟨p, rest, hp, hain, hvin⟩, ⟨t, hfind, haout, hvout⟩⟩ :=
    extract_swap_shape tx s hsome
  have hin : s.amount_in
      = (p.amount : ℚ) / (10 : ℚ) ^ get_asset_decimals s.asset_in_id := by
    rw [hvin, normalize_amount_toRat, hain]; push_cast; ring
  have hout : s.amount_out
      = (t.amount : ℚ) / (10 : ℚ) ^ get_asset_decimals s.asset_out_id := by
    rw [hvout, normalize_amount_toRat, haout]; push_cast; ring
  refine ⟨?_, ?_, ⟨tx, htx, rd, hrd, ⟨p, rest, hp, hain, hin⟩,
    ⟨t, hfind, haout, hout⟩⟩, ?_⟩
  · rw [hin]; positivity
  · rw [hout]; positivity
  · have h8 : get_asset_decimals "unregistered-asset" = 8 := by decide
    rw [normalize_amount_toRat, h8]
    norm_num

/-- A concrete swap invocation: `swap` on pool `P`, one WAVES payment in,
one USDN transfer back to the trader. -/
def c7_tx : WTx :=
  { id := "t7", height := 9, timestamp := 2000, sender := "trader",
    txType := 16,
    rawData := some
      { id := some "t7", height := some 9, timestamp := some 2000,
        dApp := some "P", callFn := some "swap",
        payment := [⟨none, 100000000⟩],
        transfers := [⟨"trader",
          some "DG2xFkPdDwKUoBkzGAhQtLpSGzfXLiCYPEzeKH2Ad24p", 2000000⟩],
        dataEntries := [] } }

/-- The swap record extracted from `c7_tx` (fields written with the same
expressions the transformer computes). -/
def c7_swap : SwapData :=
  { id := "t7" ++ "_" ++ pyOr none WAVES_ID
      ++ "_" ++ pyOr (some "DG2xFkPdDwKUoBkzGAhQtLpSGzfXLiCYPEzeKH2Ad24p") WAVES_ID,
    transaction_id := "t7", height := 9, timestamp := 2000,
    pool_address := "P", trader_address := "trader",
    asset_in_id := pyOr none WAVES_ID,
    asset_out_id := pyOr (some "DG2xFkPdDwKUoBkzGAhQtLpSGzfXLiCYPEzeKH2Ad24p") WAVES_ID,
    amount_in := (normalize_amount (pyOr none WAVES_ID) 100000000).toRat,
    amount_out := (normalize_amount
      (pyOr (some "DG2xFkPdDwKUoBkzGAhQtLpSGzfXLiCYPEzeKH2Ad24p") WAVES_ID)
      2000000).toRat,
    amount_in_usd := none, amount_out_usd := none, volume_usd := none,
    pool_fee := none, protocol_fee := none }

theorem c7_swap_amount_normalization_witness :
    c7_swap ∈ SwapTransformer.transform_transactions [c7_tx]
    ∧ 0 ≤ c7_swap.amount_in ∧ 0 ≤ c7_swap.amount_out := by
  have hm : c7_swap ∈ SwapTransformer.transform_transactions [c7_tx] := by
    have he : SwapTransformer.transform_transactions [c7_tx] = [c7_swap] := rfl
    rw [he]
    exact List.mem_singleton_self _
  have hc := c7_swap_amount_normalization [c7_tx] c7_swap hm
  exact ⟨hm, hc.1, hc.2.1⟩

theorem lookup_setBal_self (m : List (String × ℚ)) (k : String) (v : ℚ) :
    StakingTransformer.lookupBal (StakingTransformer.setBal m k v) k = some v := by
  induction m with
  | nil => simp [StakingTransformer.setBal, StakingTransformer.lookupBal]
  | cons p rest ih =>
    obtain ⟨k1, v1⟩ := p
    by_cases hk : (k1 == k) = true
    · simp [StakingTransformer.setBal, StakingTransformer.lookupBal, hk]
    · rw [Bool.not_eq_true] at hk
      simp only [StakingTransformer.setBal, hk, Bool.false_eq_true, if_false]
      simpa [StakingTransformer.lookupBal, hk] using ih

theorem foldBal_append (evs : List StakingEventData) (e : StakingEventData) :
    StakingTransformer.foldBal (evs ++ [e])
      = StakingTransformer.stepBal (StakingTransformer.foldBal evs) e := by
  simp [StakingTransformer.foldBal, List.foldl_append]

/-- An event with only the fields the aggregator reads. -/
def mkStakingEvent (staker event_type : String) (amount : ℚ) :
    StakingEventData :=
  ⟨"", "", 0, 0, staker, event_type, amount, none⟩

/-- C9: the aggregator folds the event list in order — a final `stake` adds
its amount to the running balance, a final `unstake` subtracts it, and a
final `stake_update` overwrites it with the absolute amount; a stake of 100
followed by a `stake_update` of 30 yields exactly 30; stakers with
balance ≤ 0 are dropped, `total_staked` is the sum and `unique_stakers` the
count of the remaining balances; and the aggregator is deterministic on the
same event list. -/
theorem c9_aggregate_semantics :
    (∀ (evs : List StakingEventData) (s : String) (a : ℚ),
      StakingTransformer.lookupBal
          (StakingTransformer.foldBal (evs ++ [mkStakingEvent s "stake" a])) s
        = some ((StakingTransformer.lookupBal
            (StakingTransformer.foldBal evs) s).getD 0 + a))
    ∧ (∀ (evs : List StakingEventData) (s : String) (a : ℚ),
      StakingTransformer.lookupBal
          (StakingTransformer.foldBal (evs ++ [mkStakingEvent s "unstake" a])) s
        = some ((StakingTransformer.lookupBal
            (StakingTransformer.foldBal evs) s).getD 0 - a))
    ∧ (∀ (evs : List StakingEventData) (s : String) (a : ℚ),
      StakingTransformer.lookupBal
          (StakingTransformer.foldBal
            (evs ++ [mkStakingEvent s "stake_update" a])) s
        = some a)
    ∧ ((StakingTransformer.aggregate_staking_stats
          [mkStakingEvent "alice" "stake" 100,
           mkStakingEvent "alice" "stake_update" 30] 0).total_staked = 30
       ∧ (StakingTransformer.aggregate_staking_stats
            [mkStakingEvent "alice" "stake" 100,
             mkStakingEvent "alice" "stake_update" 30] 0).unique_stakers = 1)
    ∧ (∀ (evs : List StakingEventData) (ts : ℚ),
      (StakingTransformer.aggregate_staking_stats evs ts).total_staked
          = (((StakingTransformer.foldBal evs).filter
              (fun p => 0 < p.2)).map (fun p => p.2)).sum
        ∧ (StakingTransformer.aggregate_staking_stats evs ts).unique_stakers
          = ((StakingTransformer.foldBal evs).filter
              (fun p => 0 < p.2)).length)
    ∧ (∀ (evs : List StakingEventData) (ts : ℚ),
      StakingTransformer.aggregate_staking_stats evs ts
        = StakingTransformer.aggregate_staking_stats evs ts) := by
  refine ⟨?_, ?_, ?_, ⟨?_, ?_⟩, fun evs ts => ⟨rfl, rfl⟩, fun evs ts => rfl⟩
  · intro evs s a
    rw [foldBal_append]
    simp [StakingTransformer.stepBal, mkStakingEvent, lookup_setBal_self]
  · intro evs s a
    rw [foldBal_append]
    simp [StakingTransformer.stepBal, mkStakingEvent, lookup_setBal_self]
  · intro evs s a
    rw [foldBal_append]
    simp [StakingTransformer.stepBal, mkStakingEvent, lookup_setBal_self]
  · norm_num [StakingTransformer.aggregate_staking_stats,
      StakingTransformer.foldBal, StakingTransformer.stepBal,
      StakingTransformer.lookupBal, StakingTransformer.setBal, mkStakingEvent,
      List.foldl, List.filter]
  · norm_num [StakingTransformer.aggregate_staking_stats,
      StakingTransformer.foldBal, StakingTransformer.stepBal,
      StakingTransformer.lookupBal, StakingTransformer.setBal, mkStakingEvent,
      List.foldl, List.filter]

theorem extract_eq_spec_aux (target : String) (vip : List String)
    (height timestamp : Int) (txId : String) :
    ∀ (n : Nat) (l : InvokeList), sizeOf l ≤ n → invokes_wf l = true →
      ∀ sender, extract_invokes target vip height timestamp txId sender l
        = spec_preorder target vip height timestamp txId sender l := by
  intro n
  induction n with
  | zero =>
    intro l hl
    cases l with
    | nil => intro _ _; rfl
    | cons inv rest =>
      exfalso
      obtain ⟨d, f, sub⟩ := inv
      simp at hl
  | succ n ih =>
    intro l hl hwf sender
    cases l with
    | nil => rfl
    | cons inv rest =>
      obtain ⟨d, f, sub⟩ := inv
      simp only [invokes_wf, Bool.and_eq_true] at hwf
      obtain ⟨⟨⟨hd, hf⟩, hwsub⟩, hwrest⟩ := hwf
      obtain ⟨dv, hdv⟩ := Option.isSome_iff_exists.mp hd
      obtain ⟨fv, hfv⟩ := Option.isSome_iff_exists.mp hf
      subst hdv
      subst hfv
      have hsizes : sizeOf sub ≤ n ∧ sizeOf rest ≤ n := by
        simp at hl
        omega
      simp only [extract_invokes, spec_preorder, Option.getD_some]
      rw [show spec_relevant target vip (some dv) (some fv)
            = (dv == target || vip.contains fv) from rfl]
      rw [ih sub hsizes.1 hwsub dv, ih rest hsizes.2 hwrest sender]

theorem extract_invokes_eq_spec (target : String) (vip : List String)
    (height timestamp : Int) (txId : String) (l : InvokeList)
    (hwf : invokes_wf l = true) (sender : String) :
    extract_invokes target vip height timestamp txId sender l
      = spec_preorder target vip height timestamp txId sender l :=
  extract_eq_spec_aux target vip height timestamp txId (sizeOf l) l le_rfl
    hwf sender

theorem spec_preorder_fields_aux (target : String) (vip : List String)
    (height timestamp : Int) (txId : String) :
    ∀ (n : Nat) (l : InvokeList), sizeOf l ≤ n → ∀ sender r,
      r ∈ spec_preorder target vip height timestamp txId sender l →
      r.height = height ∧ r.timestamp = timestamp ∧ r.id = txId
        ∧ r.txType = 16 := by
  intro n
  induction n with
  | zero =>
    intro l hl
    cases l with
    | nil => intro _ r hr; simp [spec_preorder] at hr
    | cons inv rest =>
      exfalso
      obtain ⟨d, f, sub⟩ := inv
      simp at hl
  | succ n ih =>
    intro l hl sender r hr
    cases l with
    | nil => simp [spec_preorder] at hr
    | cons inv rest =>
      obtain ⟨d, f, sub⟩ := inv
      have hsizes : sizeOf sub ≤ n ∧ sizeOf rest ≤ n := by
        simp at hl
        omega
      simp only [spec_preorder] at hr
      rw [List.mem_append, List.mem_append] at hr
      rcases hr with (hr | hr) | hr
      · rcases hrel : spec_relevant target vip d f with _ | _
        · rw [hrel] at hr; simp at hr
        · rw [hrel] at hr
          simp only [if_true, List.mem_singleton] at hr
          subst hr
          exact ⟨rfl, rfl, rfl, rfl⟩
      · exact ih sub hsizes.1 (d.getD "") r hr
      · exact ih rest hsizes.2 sender r hr

theorem chain_extract_length (tgt : String) (vip : List String)
    (height timestamp : Int) (txId : String) :
    ∀ (m : Nat) (sender : String),
      (extract_invokes tgt vip height timestamp txId sender
        (.cons (chain_invoke tgt m) .nil)).length = m + 1 := by
  intro m
  induction m with
  | zero => intro sender; simp [chain_invoke, extract_invokes]
  | succ m ih =>
    intro sender
    simp only [chain_invoke, extract_invokes, beq_self_eq_true, Bool.true_or,
      if_true]
    simp [ih tgt]

/-- Evaluation of `find_relevant_transactions` on a succeeded type-16
transaction whose root carries `dApp` and `call.function`. -/
theorem find_type16 (tx : Tx) (target : String) (vip : List String)
    (h1 : tx.applicationStatus = some "succeeded") (h2 : tx.txType = 16)
    (d fn : String) (hdv : tx.dApp = some d) (hfv : tx.callFn = some fn) :
    find_relevant_transactions tx target vip
      = some ((if d == target || vip.contains fn then
                 [RelTx.mk tx.sender tx.height tx.timestamp 16 tx.id
                    (some d) (some fn) tx.invokes]
               else [])
          ++ extract_invokes target vip tx.height tx.timestamp tx.id d
               tx.invokes) := by
  obtain ⟨ty, st, i, sd, hh, ts, dApp, cf, inv, pl⟩ := tx
  simp only at h1 h2 hdv hfv
  subst h1
  subst h2
  subst hdv
  subst hfv
  rfl

theorem chain_find_length (tgt : String) (n : Nat) :
    ∃ l, find_relevant_transactions (chain_tx tgt n) tgt [] = some l
      ∧ l.length = n + 1 := by
  have hfind : find_relevant_transactions (chain_tx tgt n) tgt []
      = some (RelTx.mk "cs" 3 4 16 "cid" (some tgt) (some "f")
            (chain_tx tgt n).invokes
          :: extract_invokes tgt [] 3 4 "cid" tgt (chain_tx tgt n).invokes) := by
    rw [find_type16 (chain_tx tgt n) tgt [] rfl rfl tgt "f" rfl rfl]
    simp [chain_tx]
  refine ⟨_, hfind, ?_⟩
  cases n with
  | zero => simp [chain_tx, extract_invokes]
  | succ m =>
    simp only [List.length_cons, chain_tx]
    rw [chain_extract_length tgt [] 3 4 "cid" m tgt]

/-- C1: on every succeeded, well-formed invocation transaction the walker
returns exactly the spec's depth-first pre-order traversal (root tested
first, each nested node annotated with `sender := parent.dApp` and emitted
before its children, siblings in source order); every collected node carries
the top-level transaction's `height`, `timestamp` and `id` and is tagged
with type 16; and a chain of `n` nested relevant invokes yields `n + 1`
collected nodes. -/
theorem c1_relevant_preorder (tx : Tx) (target : String) (vip : List String)
    (h1 : tx.applicationStatus = some "succeeded") (h2 : tx.txType = 16)
    (h3 : tx_wf tx = true) :
    find_relevant_transactions tx target vip = some (spec_find tx target vip)
    ∧ (∀ r ∈ spec_find tx target vip,
        r.height = tx.height ∧ r.timestamp = tx.timestamp ∧ r.id = tx.id
          ∧ r.txType = 16)
    ∧ (∀ (tgt : String) (n : Nat), ∃ l,
        find_relevant_transactions (chain_tx tgt n) tgt [] = some l
          ∧ l.length = n + 1) := by
  simp only [tx_wf, Bool.and_eq_true] at h3
  obtain ⟨⟨hd, hf⟩, hwf⟩ := h3
  obtain ⟨d, hdv⟩ := Option.isSome_iff_exists.mp hd
  obtain ⟨fn, hfv⟩ := Option.isSome_iff_exists.mp hf
  refine ⟨?_, ?_, fun tgt n => chain_find_length tgt n⟩
  · rw [find_type16 tx target vip h1 h2 d fn hdv hfv]
    unfold spec_find
    rw [hdv, hfv]
    simp only [Option.getD_some]
    rw [show spec_relevant target vip (some d) (some fn)
          = (d == target || vip.contains fn) from rfl]
    rw [extract_invokes_eq_spec target vip tx.height tx.timestamp tx.id
          tx.invokes hwf d]
  · intro r hr
    unfold spec_find at hr
    rw [List.mem_append] at hr
    rcases hr with hr | hr
    · rcases hrel : spec_relevant target vip tx.dApp tx.callFn with _ | _
      · rw [hrel] at hr; simp at hr
      · rw [hrel] at hr
        simp only [if_true, List.mem_singleton] at hr
        subst hr
        exact ⟨rfl, rfl, rfl, rfl⟩
    · exact spec_preorder_fields_aux target vip tx.height tx.timestamp tx.id
        (sizeOf tx.invokes) tx.invokes le_rfl (tx.dApp.getD "") r hr

theorem c1_relevant_preorder_witness :
    (chain_tx "T" 1).applicationStatus = some "succeeded"
    ∧ (chain_tx "T" 1).txType = 16
    ∧ tx_wf (chain_tx "T" 1) = true
    ∧ find_relevant_transactions (chain_tx "T" 1) "T" []
        = some (spec_find (chain_tx "T" 1) "T" []) :=
  ⟨rfl, rfl, by decide,
    (c1_relevant_preorder (chain_tx "T" 1) "T" [] rfl rfl (by decide)).1⟩

/-! ### The spill scenario of C2 -/

/-- The `i`-th transaction of the simulated address history: a succeeded
invocation of the target contract with no nesting (so each transaction
yields exactly one relevant record). -/
def pageTx (i : Nat) : Tx :=
  { txType := 16, applicationStatus := some "succeeded", id := Nat.repr i,
    sender := "src", height := 1, timestamp := 2, dApp := some "T",
    callFn := some "swap", invokes := .nil, payload := none }

/-- The relevant record extracted from `pageTx i`. -/
def pageRel (i : Nat) : RelTx :=
  ⟨"src", 1, 2, 16, Nat.repr i, some "T", some "swap", .nil⟩

theorem find_pageTx (i : Nat) :
    find_relevant_transactions (pageTx i) "T" [] = some [pageRel i] := by
  rw [find_type16 (pageTx i) "T" [] rfl rfl "T" "swap" rfl rfl]
  simp [pageTx, pageRel, extract_invokes]

theorem batch_relevant_map (l : List Nat) :
    Extractor.batch_relevant "T" [] (l.map pageTx) = some (l.map pageRel) := by
  induction l with
  | nil => rfl
  | cons i rest ih => simp [Extractor.batch_relevant, find_pageTx, ih]

/-- One fetched page: transactions numbered `start` to `start + n - 1`. -/
def pageTxRange (start n : Nat) : List Tx :=
  (List.range n).map (fun i => pageTx (start + i))

/-- The relevant records of `pageTxRange start n`. -/
def pageRelRange (start n : Nat) : List RelTx :=
  (List.range n).map (fun i => pageRel (start + i))

theorem batch_relevant_range (start n : Nat) :
    Extractor.batch_relevant "T" [] (pageTxRange start n)
      = some (pageRelRange start n) := by
  have h := batch_relevant_map ((List.range n).map (fun i => start + i))
  simpa [pageTxRange, pageRelRange, List.map_map, Function.comp] using h

theorem pageTxRange_isEmpty (start n : Nat) :
    (pageTxRange start n).isEmpty = n.beq 0 := by
  cases n with
  | zero => rfl
  | succ m =>
    have h : pageTxRange start (m + 1) ≠ [] := by simp [pageTxRange]
    rw [List.isEmpty_eq_false.mpr h]
    rfl

theorem pageRelRange_isEmpty (start n : Nat) :
    (pageRelRange start n).isEmpty = n.beq 0 := by
  cases n with
  | zero => rfl
  | succ m =>
    have h : pageRelRange start (m + 1) ≠ [] := by simp [pageRelRange]
    rw [List.isEmpty_eq_false.mpr h]
    rfl

theorem pageRelRange_length (start n : Nat) :
    (pageRelRange start n).length = n := by
  simp [pageRelRange]

/-- Three pages of 1000/1000/400 relevant transactions with
`has_more = true, true, false`. -/
def c2_pages : List (List Tx × Bool) :=
  [(pageTxRange 0 1000, true), (pageTxRange 1000 1000, true),
   (pageTxRange 2000 400, false)]

/-- C2: with pages of 1000/1000/400 relevant transactions and an in-memory
threshold of 1500, exactly one threshold-triggered spill happens during the
fetch (file 0, holding pages 1 and 2), the remaining 400 records are
flushed as file 1, and the drain (read files from the highest index down to
0, reverse each, concatenate) reconstructs exactly the reverse of the
relevant transactions in fetch (newest-first) order. -/
theorem c2_spill_scenario :
    Extractor.fetch_all_transactions "T" [] 1500 c2_pages
      = some ([], 2,
          [pageRelRange 0 1000 ++ pageRelRange 1000 1000,
           pageRelRange 2000 400], 1)
    ∧ Extractor.load_transactions_from_files
        [pageRelRange 0 1000 ++ pageRelRange 1000 1000, pageRelRange 2000 400]
      = ((pageRelRange 0 1000 ++ pageRelRange 1000 1000)
          ++ pageRelRange 2000 400).reverse := by
  constructor
  · have hloop : Extractor.fetch_loop "T" [] 1500 c2_pages ⟨[], [], 0⟩
        = some ⟨pageRelRange 2000 400,
            [pageRelRange 0 1000 ++ pageRelRange 1000 1000], 1⟩ := by
      simp only [c2_pages, Extractor.fetch_loop, pageTxRange_isEmpty,
        batch_relevant_range, pageRelRange_length, List.nil_append,
        List.length_append]
      norm_num [pageRelRange_length]
    unfold Extractor.fetch_all_transactions
    rw [hloop]
    simp only []
    rw [show (0 < ([pageRelRange 0 1000 ++ pageRelRange 1000 1000]).length
          && !(pageRelRange 2000 400).isEmpty) = true from by
        simp [pageRelRange_isEmpty]; decide]
    simp
  · simp [Extractor.load_transactions_from_files, List.reverse_append]

end PuzzleEtl
